import Mathlib

/-!
Shallow embedding of `GetGitHubCommitsFromDevOpsBuild.py`, a single-file
pipeline that resolves two Azure DevOps build numbers to commit SHAs, fetches
the GitHub commits between them, extracts Jira ticket references from the
commit messages, and writes a Markdown report.

Pure string processing is translated directly; each effectful call (HTTP
request, subprocess invocation, file write) is replaced by an explicit input
describing its outcome, and the observable effects of `main` are collected in
a result record.
-/

namespace DevOpsBuild

/-- ASCII word character, as used by the regex word boundary `\b` on the
ASCII inputs this development evaluates. -/
def isWordChar (c : Char) : Bool := c.isAlpha || c.isDigit || c == '_'

/-- Match attempt of `[a-zA-Z]{3,5}-[0-9]{2,6}` followed by a word boundary,
anchored at the head of `xs`; returns the length of the match.  Greedy
repetition with backtracking collapses to runs: the maximal letter run must
have length 3..5 and be followed by a hyphen (a shorter letter count is
always followed by another letter), and the maximal digit run after the
hyphen must have length 2..6 and be followed by a non-word character or the
end of the input (a shorter digit count is always followed by another
digit). -/
def ticketMatchLen (xs : List Char) : Option Nat :=
  let L := (xs.takeWhile Char.isAlpha).length
  if 3 ≤ L ∧ L ≤ 5 then
    match xs.drop L with
    | '-' :: rest =>
      let D := (rest.takeWhile Char.isDigit).length
      if 2 ≤ D ∧ D ≤ 6 then
        match rest.drop D with
        | [] => some (L + 1 + D)
        | c :: _ => if isWordChar c then none else some (L + 1 + D)
      else none
    | _ => none
  else none

/-- Scan of `re.findall(r"\b[a-zA-Z]{3,5}-\d{2,6}\b", text)` (the
`re.IGNORECASE` flag is redundant for this ASCII letter class): try a match
at every position whose left context is a word boundary, left to right.  For
this pattern no match can start strictly inside another match (interior
positions hold letters preceded by a letter, the hyphen, or digits), so
advancing one character at a time yields exactly the non-overlapping matches
`findall` reports. -/
def ticketScan : Option Char → List Char → List String
  | _, [] => []
  | prev, c :: rest =>
    let boundary := match prev with
      | none => true
      | some p => !isWordChar p
    if boundary then
      match ticketMatchLen (c :: rest) with
      | some n => String.mk ((c :: rest).take n) :: ticketScan (some c) rest
      | none => ticketScan (some c) rest
    else ticketScan (some c) rest

/-- All ticket-pattern matches in a commit message, in scan order. -/
def findRefs (s : String) : List String := ticketScan none s.data

/-- Azure DevOps build entry as read by `get_azure_build_commit`: only the
`result` and `sourceVersion` keys are consulted, both through `.get`, so an
absent key behaves as `None`. -/
structure AzureBuild where
  result : Option String
  sourceVersion : Option String

/-- Parsed JSON body of the Azure DevOps build-list response: the `count`
read through `data.get("count", 0)` and the `value` array. -/
structure BuildsResponse where
  count : Nat
  value : List AzureBuild

/-- Decision logic of `get_azure_build_commit` (script lines 65-80) applied
to a parsed build-list response.  The HTTP-failure and JSON-decoding paths of
lines 52-63 also return `None` and reach none of this logic. -/
def get_azure_build_commit (data : BuildsResponse) : Option String :=
  if data.count = 0 then none
  else
    match data.value.find? (fun b => b.result == some "succeeded") with
    | none => none
    | some build =>
      match build.sourceVersion with
      | none => none
      | some sha => if sha = "" then none else some sha

/-- Nested `commit.author` object of a GitHub compare-API commit entry. -/
structure RawAuthor where
  name : Option String
  date : Option String

/-- Nested `commit` object of a GitHub compare-API commit entry. -/
structure RawCommitData where
  message : Option String
  author : Option RawAuthor

/-- One entry of the `commits` array of the compare-API response; a `none`
field stands for an absent key, whose subscript access raises `KeyError`. -/
structure RawEntry where
  sha : Option String
  commit : Option RawCommitData

/-- Python string slicing `s[:n]`, by code points. -/
def pySlice (s : String) (n : Nat) : String := String.mk (s.data.take n)

/-- Commit dictionary flowing between the pipeline stages; a `none` field
models a key missing from the dictionary. -/
structure CommitDict where
  sha : Option String
  message : Option String
  author : Option String
  date : Option String

/-- The `try` block of script lines 114-120: build the commit dictionary,
with `KeyError` (here `none`) if any of the four accessed paths is absent.
The upstream `sha` is truncated to its first seven characters. -/
def extractFields (c : RawEntry) : Option CommitDict :=
  match c.sha, c.commit with
  | some sha, some cd =>
    match cd.message, cd.author with
    | some msg, some a =>
      match a.name, a.date with
      | some name, some date =>
        some ⟨some (pySlice sha 7), some msg, some name, some date⟩
      | _, _ => none
    | _, _ => none
  | _, _ => none

/-- The loop of script lines 112-127: entries whose field extraction raises
`KeyError` are skipped with a warning, the rest are appended in response
order. -/
def collectCommits : List RawEntry → List CommitDict
  | [] => []
  | c :: rest =>
    match extractFields c with
    | some info => info :: collectCommits rest
    | none => collectCommits rest

/-- Outcome of the `gh api` subprocess call combined with JSON decoding of
its stdout: the four failure branches of script lines 92-107, or a parsed
body whose `commits` key is read through `data.get("commits", [])`. -/
inductive GhOutcome where
  | exitNonzero (stderr : String)
  | timedOut
  | ghMissing
  | invalidJson
  | parsed (commits : Option (List RawEntry))

/-- The GitHub compare URL built on script line 85. -/
def compareUrl (repo sha1 sha2 : String) : String :=
  "https://github.com/" ++ repo ++ "/compare/" ++ sha1 ++ "..." ++ sha2

/-- `get_github_commits_between` (script lines 83-129), with the subprocess
and JSON-decoding effects supplied as a `GhOutcome`. -/
def get_github_commits_between (repo sha1 sha2 : String) (outcome : GhOutcome) :
    List CommitDict × String :=
  let compare_url := compareUrl repo sha1 sha2
  match outcome with
  | .exitNonzero _ => ([], compare_url)
  | .timedOut => ([], compare_url)
  | .ghMissing => ([], compare_url)
  | .invalidJson => ([], compare_url)
  | .parsed commits => (collectCommits (commits.getD []), compare_url)

/-- Default `jira_base_url` argument of `analyze_commits`. -/
def jiraBaseUrl : String := "https://landmarkinfo.atlassian.net/browse/"

/-- Python `str.upper()` applied to a pattern match, which is ASCII: each
character is mapped to its upper-case form. -/
def pyUpper (s : String) : String := String.mk (s.data.map Char.toUpper)

/-- Loop of script lines 137-143: every pattern match over every commit
message, upper-cased; a commit whose `message` key is missing is skipped
with a warning. -/
def commitRefs (commit_list : List CommitDict) : List String :=
  (commit_list.filterMap CommitDict.message).flatMap
    (fun m => (findRefs m).map pyUpper)

/-- Line 145, `sorted(refs)` on the accumulated set: Python's
`sorted(set(...))` is the unique ascending enumeration of the set of
collected references, realised here as insertion sort over first-occurrence
deduplication. -/
def sortedRefs (commit_list : List CommitDict) : List String :=
  (commitRefs commit_list).dedup.insertionSort (· ≤ ·)

/-- `analyze_commits` (script lines 132-154): Jira links of the sorted
unique upper-cased references. -/
def analyze_commits (commit_list : List CommitDict) (jira_base_url : String) :
    List String :=
  (sortedRefs commit_list).map (fun ref => jira_base_url ++ ref)

/-- Python `message.split("\n")[0]`: the text before the first newline. -/
def firstLine (s : String) : String :=
  String.mk (s.data.takeWhile (fun c => c ≠ '\n'))

/-- End of a candidate `#`-run during the scan of `re.sub(r"#(\d+)", ...)`:
a `#` followed by at least one digit was a match and becomes the
pull-request link of script lines 175-178; a bare `#` matched nothing and is
kept as is. -/
def prFlush (repo : String) (ds : List Char) : List Char :=
  if ds = [] then ['#']
  else
    let num := String.mk ds
    ("[#" ++ num ++ "](https://github.com/" ++ repo ++ "/pull/" ++ num ++ ")").data

/-- Left-to-right scan of `re.sub(r"#(\d+)", ...)` (script lines 174-178):
`buf = some ds` records that a `#` was consumed and `ds` digits follow it so
far; a maximal nonempty digit run ends the match and scanning resumes right
after the digits. -/
def prSubGo (repo : String) (buf : Option (List Char)) : List Char → List Char
  | [] =>
    match buf with
    | none => []
    | some ds => prFlush repo ds
  | c :: rest =>
    match buf with
    | none =>
      if c = '#' then prSubGo repo (some []) rest
      else c :: prSubGo repo none rest
    | some ds =>
      if c.isDigit then prSubGo repo (some (ds ++ [c])) rest
      else if c = '#' then prFlush repo ds ++ prSubGo repo (some []) rest
      else prFlush repo ds ++ c :: prSubGo repo none rest

/-- `msg_summary_with_pr` of script lines 175-178: every `#` followed by a
maximal nonempty digit run is rewritten into a pull-request link. -/
def prSub (repo : String) (xs : List Char) : List Char :=
  prSubGo repo none xs

/-- One line of the commit section (script lines 170-182): present exactly
when the four keys read inside the `try` block are all present. -/
def commitLine (repo : String) (c : CommitDict) : Option String :=
  match c.sha, c.message, c.author, c.date with
  | some sha, some msg, some author, some date =>
    some ("- [" ++ sha ++ "](https://github.com/" ++ repo ++ "/commit/" ++ sha
      ++ ") | " ++ author ++ " | " ++ date ++ " | "
      ++ String.mk (prSub repo (firstLine msg).data) ++ "\n")
  | _, _, _, _ => none

/-- Text written by `export_to_markdown` (script lines 157-199), with the
wall-clock timestamp supplied as an argument. -/
def export_to_markdown (commit_list : List CommitDict) (refs_links : List String)
    (repo : String) (compare_url : String) (timestamp : String) : String :=
  "# Commit Report - " ++ timestamp ++ "\n\n"
    ++ "**GitHub Compare URL:** [" ++ compare_url ++ "](" ++ compare_url ++ ")\n\n"
    ++ "## GitHub Commits\n\n"
    ++ (if commit_list.isEmpty then "No commits found.\n"
        else String.join (commit_list.filterMap (commitLine repo)))
    ++ "\n## Ticket References\n\n"
    ++ (if refs_links.isEmpty then "No ticket references found.\n"
        else String.join (refs_links.map (fun link => "- " ++ link ++ "\n")))
    ++ "\n_Report generated on " ++ timestamp ++ "_\n"

/-- Resolution loop of script lines 225-229: each build number is resolved
through `get_azure_build_commit`, and the SHA is appended when truthy (not
`None` and not the empty string). -/
def resolveShas (resolve : String → Option String) (b1 b2 : String) : List String :=
  [b1, b2].filterMap (fun b =>
    match resolve b with
    | some s => if s = "" then none else some s
    | none => none)

/-- Choice of script lines 210-218: two positional command-line arguments (a
`sys.argv` of length four) are used directly, otherwise the config's
`BUILD_NUMBERS` must be a two-element list, else `sys.exit(1)`. -/
def pickBuilds (argv : List String) (buildNumbers : List String) :
    Option (String × String) :=
  if argv.length = 4 then some (argv.getD 2 "", argv.getD 3 "")
  else if buildNumbers.length = 2 then
    some (buildNumbers.getD 0 "", buildNumbers.getD 1 "")
  else none

/-- Observable effects of one run of `main` (script lines 208-248): the pair
of build numbers used, whether the Azure resolution loop ran, the `sys.exit`
code if any, whether the GitHub fetch ran, whether reference extraction ran,
and the report text handed to the file write. -/
structure RunResult where
  buildsUsed : Option (String × String)
  resolutionAttempted : Bool
  exitCode : Option Nat
  fetchAttempted : Bool
  analyzeAttempted : Bool
  reportContent : Option String

/-- `main` (script lines 208-248) with its effects made explicit: `resolve`
is the Azure build resolution of lines 52-80 for one build number, `outcome`
the subprocess outcome of the GitHub fetch, and `timestamp` the wall clock
read inside `export_to_markdown`. -/
def main (argv : List String) (buildNumbers : List String)
    (resolve : String → Option String) (repo : String) (outcome : GhOutcome)
    (timestamp : String) : RunResult :=
  match pickBuilds argv buildNumbers with
  | none => ⟨none, false, some 1, false, false, none⟩
  | some (b1, b2) =>
    let shas := resolveShas resolve b1 b2
    if shas.length < 2 then ⟨some (b1, b2), true, some 1, false, false, none⟩
    else
      let fetched :=
        get_github_commits_between repo (shas.getD 0 "") (shas.getD 1 "") outcome
      if fetched.1.isEmpty then ⟨some (b1, b2), true, none, true, false, none⟩
      else
        let refs_links := analyze_commits fetched.1 jiraBaseUrl
        ⟨some (b1, b2), true, none, true, true,
          some (export_to_markdown fetched.1 refs_links repo fetched.2 timestamp)⟩

/-- The commit loop builds exactly the dictionaries of the entries whose
field extraction succeeds, in response order. -/
theorem collectCommits_eq_filterMap (l : List RawEntry) :
    collectCommits l = l.filterMap extractFields := by
  induction l with
  | nil => rfl
  | cons c rest ih =>
    simp only [collectCommits, List.filterMap_cons]
    cases h : extractFields c <;> simp [h, ih]

/-- A `filterMap` whose function succeeds on every element drops nothing. -/
theorem length_filterMap_of_isSome {α β : Type} (f : α → Option β) (l : List α)
    (h : ∀ c ∈ l, (f c).isSome = true) : (l.filterMap f).length = l.length := by
  induction l with
  | nil => rfl
  | cons c rest ih =>
    obtain ⟨b, hb⟩ := Option.isSome_iff_exists.mp (h c (List.mem_cons_self c rest))
    simp [List.filterMap_cons, hb,
      ih (fun x hx => h x (List.mem_cons_of_mem _ hx))]

/-- Shape of a successfully extracted commit dictionary: all four keys are
present and the stored SHA is the seven-character truncation. -/
theorem extractFields_shape (e : RawEntry) (c : CommitDict)
    (h : extractFields e = some c) :
    ∃ s msg name date,
      c = ⟨some (pySlice s 7), some msg, some name, some date⟩ := by
  rcases e with ⟨_ | sha, _ | ⟨_ | msg, _ | ⟨_ | name, _ | date⟩⟩⟩ <;>
    simp [extractFields] at h
  exact ⟨sha, msg, name, date, h.symm⟩

/-- Python's `s[:n]` never yields more than `n` characters. -/
theorem pySlice_length_le (s : String) (n : Nat) : (pySlice s n).length ≤ n := by
  show (s.data.take n).length ≤ n
  rw [List.length_take]
  exact Nat.min_le_left _ _

/-- Whatever branch `main` takes after the build numbers are chosen, the
recorded pair is the chosen one. -/
theorem main_buildsUsed (argv buildNumbers : List String)
    (resolve : String → Option String) (repo : String) (outcome : GhOutcome)
    (timestamp : String) :
    (main argv buildNumbers resolve repo outcome timestamp).buildsUsed =
      pickBuilds argv buildNumbers := by
  unfold main
  cases hp : pickBuilds argv buildNumbers with
  | none => rfl
  | some p =>
    obtain ⟨b1, b2⟩ := p
    dsimp only
    split
    · rfl
    · split <;> rfl

/-- Splitting a commit list on a concatenation splits the collected
reference matches. -/
theorem commitRefs_append (l₁ l₂ : List CommitDict) :
    commitRefs (l₁ ++ l₂) = commitRefs l₁ ++ commitRefs l₂ := by
  simp [commitRefs, List.filterMap_append]

/-- The sorted reference list holds exactly the collected references. -/
theorem mem_sortedRefs (l : List CommitDict) (x : String) :
    x ∈ sortedRefs l ↔ x ∈ commitRefs l := by
  simp [sortedRefs, List.mem_dedup]

/-- The reference list is sorted ascending. -/
theorem sortedRefs_sorted (l : List CommitDict) :
    (sortedRefs l).Sorted (· ≤ ·) :=
  List.sorted_insertionSort _ _

/-- The reference list has no duplicates. -/
theorem sortedRefs_nodup (l : List CommitDict) : (sortedRefs l).Nodup :=
  (List.perm_insertionSort _ _).nodup_iff.mpr (List.nodup_dedup _)

/-- The reference list is strictly ascending: ascending and each key once. -/
theorem sortedRefs_pairwise_lt (l : List CommitDict) :
    (sortedRefs l).Pairwise (· < ·) :=
  ((sortedRefs_sorted l).and (sortedRefs_nodup l)).imp
    (fun hab => lt_of_le_of_ne hab.1 hab.2)

/-- Two commit lists with the same set of collected references produce the
same sorted reference list. -/
theorem sortedRefs_ext (l₁ l₂ : List CommitDict)
    (h : ∀ x, x ∈ commitRefs l₁ ↔ x ∈ commitRefs l₂) :
    sortedRefs l₁ = sortedRefs l₂ := by
  refine List.eq_of_perm_of_sorted ?_ (sortedRefs_sorted l₁) (sortedRefs_sorted l₂)
  rw [List.perm_ext_iff_of_nodup (sortedRefs_nodup l₁) (sortedRefs_nodup l₂)]
  intro a
  rw [mem_sortedRefs, mem_sortedRefs]
  exact h a

/-- C1: the pair of build numbers comes from two positional command-line
arguments (a `sys.argv` of length four) or from a two-element
`BUILD_NUMBERS` list; when neither source supplies exactly two values the
run exits with code 1 before any build resolution is attempted. -/
theorem main_build_number_sources :
    ∀ (argv buildNumbers : List String) (resolve : String → Option String)
      (repo : String) (outcome : GhOutcome) (timestamp : String),
      (argv.length ≠ 4 → buildNumbers.length ≠ 2 →
        main argv buildNumbers resolve repo outcome timestamp =
          ⟨none, false, some 1, false, false, none⟩)
      ∧ (argv.length = 4 →
          (main argv buildNumbers resolve repo outcome timestamp).buildsUsed =
            some (argv.getD 2 "", argv.getD 3 ""))
      ∧ (argv.length ≠ 4 → buildNumbers.length = 2 →
          (main argv buildNumbers resolve repo outcome timestamp).buildsUsed =
            some (buildNumbers.getD 0 "", buildNumbers.getD 1 "")) := by
  intro argv bn resolve repo outcome ts
  refine ⟨?_, ?_, ?_⟩
  · intro h4 h2
    unfold main
    simp [pickBuilds, h4, h2]
  · intro h4
    rw [main_buildsUsed]
    simp [pickBuilds, h4]
  · intro h4 h2
    rw [main_buildsUsed]
    simp [pickBuilds, h4, h2]

/-- Closed instances of the C1 theorem: no source of two build numbers gives
the fatal result, and four command-line tokens give the positional pair. -/
theorem main_build_number_sources_witness :
    main ["script", "cfg"] [] (fun _ => none) "r" GhOutcome.timedOut "t" =
      ⟨none, false, some 1, false, false, none⟩
    ∧ (main ["script", "cfg", "1.0.0", "2.0.0"] [] (fun _ => none) "r"
        GhOutcome.timedOut "t").buildsUsed = some ("1.0.0", "2.0.0") :=
  ⟨(main_build_number_sources ["script", "cfg"] [] (fun _ => none) "r"
      GhOutcome.timedOut "t").1 (by decide) (by decide),
    (main_build_number_sources ["script", "cfg", "1.0.0", "2.0.0"] []
      (fun _ => none) "r" GhOutcome.timedOut "t").2.1 (by decide)⟩

/-- C2: on a well-formed build-list response, resolution is absent for an
empty result set, absent when no entry succeeded, absent when the first
succeeded entry has a missing or empty `sourceVersion`, and otherwise the
`sourceVersion` of the first succeeded entry. -/
theorem azure_build_resolution (data : BuildsResponse)
    (hwf : data.count = data.value.length) :
    (data.value = [] → get_azure_build_commit data = none)
    ∧ ((∀ b ∈ data.value, b.result ≠ some "succeeded") →
        get_azure_build_commit data = none)
    ∧ ∀ b, data.value.find? (fun x => x.result == some "succeeded") = some b →
        (((b.sourceVersion = none ∨ b.sourceVersion = some "") →
            get_azure_build_commit data = none)
          ∧ ∀ s, b.sourceVersion = some s → s ≠ "" →
              get_azure_build_commit data = some s) := by
  obtain ⟨cnt, value⟩ := data
  simp only at hwf
  subst hwf
  refine ⟨?_, ?_, ?_⟩
  · intro h
    subst h
    rfl
  · intro h
    have hf : value.find? (fun x => x.result == some "succeeded") = none := by
      rw [List.find?_eq_none]
      intro x hx
      simpa using h x hx
    by_cases hc : value.length = 0
    · simp [get_azure_build_commit, hc]
    · simp [get_azure_build_commit, hc, hf]
  · intro b hb
    have hc : value.length ≠ 0 := by
      intro h0
      rw [List.length_eq_zero] at h0
      subst h0
      simp at hb
    constructor
    · rintro (h | h) <;> simp [get_azure_build_commit, hc, hb, h]
    · intro s hs hne
      simp [get_azure_build_commit, hc, hb, hs, hne]

/-- Closed instance of the C2 theorem: a one-element succeeded build list
with a nonempty `sourceVersion` resolves to that revision. -/
theorem azure_build_resolution_witness :
    get_azure_build_commit ⟨1, [⟨some "succeeded", some "abc123"⟩]⟩ =
      some "abc123" :=
  ((azure_build_resolution ⟨1, [⟨some "succeeded", some "abc123"⟩]⟩
      rfl).2.2 ⟨some "succeeded", some "abc123"⟩ rfl).2 "abc123" rfl (by decide)

/-- C3: the issue-key pattern matches word-boundary-delimited tokens of 3-5
letters, a hyphen, and 2-6 digits, case-insensitively: `ABCDE-12` and
`abc-123` match, while `AB-12`, `ABCDEF-12`, `ABC-1`, and `ABC-1234567`
yield no match. -/
theorem ticket_pattern_boundaries :
    findRefs "ABCDE-12" = ["ABCDE-12"]
    ∧ findRefs "AB-12" = []
    ∧ findRefs "ABCDEF-12" = []
    ∧ findRefs "ABC-1" = []
    ∧ findRefs "ABC-1234567" = []
    ∧ findRefs "abc-123" = ["abc-123"] :=
  ⟨rfl, rfl, rfl, rfl, rfl, rfl⟩

/-- C4: reference extraction upper-cases every match, emits each unique key
exactly once as `jira_base_url ++ key` in strictly ascending lexicographic
order, is idempotent under input duplication and independent of the order of
the commits, and the two spec example messages yield exactly one link. -/
theorem analyze_commits_normalized_sorted_unique :
    ∀ (l : List CommitDict) (jira : String),
      analyze_commits l jira = (sortedRefs l).map (fun k => jira ++ k)
      ∧ (sortedRefs l).Pairwise (· < ·)
      ∧ (∀ k, k ∈ sortedRefs l ↔ k ∈ commitRefs l)
      ∧ analyze_commits (l ++ l) jira = analyze_commits l jira
      ∧ (∀ l2, l.Perm l2 → analyze_commits l jira = analyze_commits l2 jira)
      ∧ analyze_commits
          [⟨none, some "Fix ABC-123", none, none⟩,
            ⟨none, some "ABC-123 again", none, none⟩] jiraBaseUrl =
          ["https://landmarkinfo.atlassian.net/browse/ABC-123"] := by
  intro l jira
  refine ⟨rfl, sortedRefs_pairwise_lt l, mem_sortedRefs l, ?_, ?_, ?_⟩
  · unfold analyze_commits
    congr 1
    apply sortedRefs_ext
    intro x
    simp [commitRefs_append]
  · intro l2 hperm
    unfold analyze_commits
    congr 1
    apply sortedRefs_ext
    intro x
    simp only [commitRefs, List.mem_flatMap, List.mem_filterMap]
    constructor
    · rintro ⟨m, ⟨c, hc, hm⟩, hx⟩
      exact ⟨m, ⟨c, hperm.mem_iff.mp hc, hm⟩, hx⟩
    · rintro ⟨m, ⟨c, hc, hm⟩, hx⟩
      exact ⟨m, ⟨c, hperm.mem_iff.mpr hc, hm⟩, hx⟩
  · rfl

/-- Closed instance of the C4 theorem: swapping the two example commits
leaves the extracted links unchanged. -/
theorem analyze_commits_normalized_sorted_unique_witness :
    analyze_commits
        [⟨none, some "Fix ABC-123", none, none⟩,
          ⟨none, some "ABC-123 again", none, none⟩] jiraBaseUrl =
      analyze_commits
        [⟨none, some "ABC-123 again", none, none⟩,
          ⟨none, some "Fix ABC-123", none, none⟩] jiraBaseUrl :=
  (analyze_commits_normalized_sorted_unique
      [⟨none, some "Fix ABC-123", none, none⟩,
        ⟨none, some "ABC-123 again", none, none⟩] jiraBaseUrl).2.2.2.2.1
    [⟨none, some "ABC-123 again", none, none⟩,
      ⟨none, some "Fix ABC-123", none, none⟩]
    (List.Perm.swap _ _ _)

/-- C5: the fetcher returns the comparison URL on every path, and every
failure path (non-zero exit, timeout, missing executable, malformed JSON)
pairs it with an empty commit list. -/
theorem compare_url_always_returned :
    ∀ (repo sha1 sha2 : String) (outcome : GhOutcome),
      compareUrl repo sha1 sha2 =
        "https://github.com/" ++ repo ++ "/compare/" ++ sha1 ++ "..." ++ sha2
      ∧ (get_github_commits_between repo sha1 sha2 outcome).2 =
          compareUrl repo sha1 sha2
      ∧ (∀ stderr, get_github_commits_between repo sha1 sha2
          (GhOutcome.exitNonzero stderr) = ([], compareUrl repo sha1 sha2))
      ∧ get_github_commits_between repo sha1 sha2 GhOutcome.timedOut =
          ([], compareUrl repo sha1 sha2)
      ∧ get_github_commits_between repo sha1 sha2 GhOutcome.ghMissing =
          ([], compareUrl repo sha1 sha2)
      ∧ get_github_commits_between repo sha1 sha2 GhOutcome.invalidJson =
          ([], compareUrl repo sha1 sha2) := by
  intro repo sha1 sha2 outcome
  refine ⟨rfl, ?_, fun _ => rfl, rfl, rfl, rfl⟩
  cases outcome <;> rfl

/-- C6: on a parsed response the fetcher keeps, in response order, exactly
the entries holding all four of `sha`, `commit.message`,
`commit.author.name`, and `commit.author.date`; an entry missing one of them
is dropped without affecting the rest of the batch. -/
theorem parsed_commits_filtering :
    ∀ (repo sha1 sha2 : String) (l : List RawEntry),
      get_github_commits_between repo sha1 sha2 (GhOutcome.parsed (some l)) =
        (l.filterMap extractFields, compareUrl repo sha1 sha2)
      ∧ (∀ e : RawEntry, (extractFields e).isSome = true ↔
          (e.sha.isSome = true ∧ ∃ cd, e.commit = some cd
            ∧ cd.message.isSome = true
            ∧ ∃ a, cd.author = some a ∧ a.name.isSome = true
              ∧ a.date.isSome = true))
      ∧ (∀ (pre : List RawEntry) (bad : RawEntry) (post : List RawEntry),
          extractFields bad = none →
          collectCommits (pre ++ bad :: post) = collectCommits (pre ++ post)) := by
  intro repo sha1 sha2 l
  refine ⟨?_, ?_, ?_⟩
  · simp [get_github_commits_between, collectCommits_eq_filterMap]
  · intro e
    rcases e with ⟨_ | sha, _ | ⟨_ | msg, _ | ⟨_ | name, _ | date⟩⟩⟩ <;>
      simp [extractFields]
  · intro pre bad post hbad
    simp [collectCommits_eq_filterMap, List.filterMap_append,
      List.filterMap_cons, hbad]

/-- Closed instance of the C6 theorem: a malformed entry is skipped without
failing the batch. -/
theorem parsed_commits_filtering_witness :
    collectCommits [({ sha := none, commit := none } : RawEntry)] =
      collectCommits [] := by
  have h := (parsed_commits_filtering "r" "a" "b" []).2.2 [] ⟨none, none⟩ [] rfl
  simpa using h

set_option maxRecDepth 8000 in
/-- C7: the report line for the example commit links the short SHA to the
commit page, keeps only the first message line as the summary, and rewrites
`#42` inside it into a pull-request link; the full report embeds that
line. -/
theorem markdown_commit_line_roundtrip :
    commitLine "org/repo"
        ⟨some "abcdef1", some "Fix #42\nbody", some "A",
          some "2024-01-01T00:00:00Z"⟩ =
      some ("- [abcdef1](https://github.com/org/repo/commit/abcdef1) | A | "
        ++ "2024-01-01T00:00:00Z | "
        ++ "Fix [#42](https://github.com/org/repo/pull/42)\n")
    ∧ export_to_markdown
        [⟨some "abcdef1", some "Fix #42\nbody", some "A",
          some "2024-01-01T00:00:00Z"⟩] [] "org/repo" "U" "T" =
      "# Commit Report - T\n\n**GitHub Compare URL:** [U](U)\n\n"
        ++ "## GitHub Commits\n\n"
        ++ "- [abcdef1](https://github.com/org/repo/commit/abcdef1) | A | "
        ++ "2024-01-01T00:00:00Z | "
        ++ "Fix [#42](https://github.com/org/repo/pull/42)\n"
        ++ "\n## Ticket References\n\nNo ticket references found.\n"
        ++ "\n_Report generated on T_\n" :=
  ⟨rfl, rfl⟩

/-- C8: when fewer than two SHAs resolve, the run exits with code 1 and
neither the commit fetch nor the report write is attempted. -/
theorem abort_when_fewer_than_two_shas :
    ∀ (argv buildNumbers : List String) (resolve : String → Option String)
      (repo : String) (outcome : GhOutcome) (timestamp : String)
      (b1 b2 : String),
      pickBuilds argv buildNumbers = some (b1, b2) →
      (resolveShas resolve b1 b2).length < 2 →
      main argv buildNumbers resolve repo outcome timestamp =
        ⟨some (b1, b2), true, some 1, false, false, none⟩ := by
  intro argv bn resolve repo outcome ts b1 b2 hp hlen
  unfold main
  simp [hp, hlen]

/-- Closed instance of the C8 theorem: nothing resolves, so the run aborts
without fetching. -/
theorem abort_when_fewer_than_two_shas_witness :
    main ["script", "cfg", "1.0.0", "2.0.0"] [] (fun _ => none) "r"
        GhOutcome.timedOut "t" =
      ⟨some ("1.0.0", "2.0.0"), true, some 1, false, false, none⟩ :=
  abort_when_fewer_than_two_shas ["script", "cfg", "1.0.0", "2.0.0"] []
    (fun _ => none) "r" GhOutcome.timedOut "t" "1.0.0" "2.0.0" rfl (by decide)

/-- C9: when both SHAs resolve but the fetched commit list is empty, the run
returns normally (no exit code), after the fetch, without extracting
references and without producing report text. -/
theorem empty_range_early_return :
    ∀ (argv buildNumbers : List String) (resolve : String → Option String)
      (repo : String) (outcome : GhOutcome) (timestamp : String)
      (b1 b2 : String),
      pickBuilds argv buildNumbers = some (b1, b2) →
      (resolveShas resolve b1 b2).length = 2 →
      (get_github_commits_between repo ((resolveShas resolve b1 b2).getD 0 "")
        ((resolveShas resolve b1 b2).getD 1 "") outcome).1 = [] →
      main argv buildNumbers resolve repo outcome timestamp =
        ⟨some (b1, b2), true, none, true, false, none⟩ := by
  intro argv bn resolve repo outcome ts b1 b2 hp hlen hempty
  have hnot : ¬ (resolveShas resolve b1 b2).length < 2 := by omega
  unfold main
  rw [hp]
  dsimp only
  rw [if_neg hnot, hempty]
  rfl

/-- Closed instance of the C9 theorem: two resolved SHAs and an empty
compare range give the successful early return. -/
theorem empty_range_early_return_witness :
    main ["script", "cfg", "1.0.0", "2.0.0"] [] (fun b => some b) "r"
        (GhOutcome.parsed (some [])) "t" =
      ⟨some ("1.0.0", "2.0.0"), true, none, true, false, none⟩ :=
  empty_range_early_return ["script", "cfg", "1.0.0", "2.0.0"] []
    (fun b => some b) "r" (GhOutcome.parsed (some [])) "t" "1.0.0" "2.0.0"
    rfl (by decide) rfl

/-- C10: every commit dictionary produced by the fetch loop carries all four
keys with a SHA of at most seven characters, so the defensive missing-field
skips of `analyze_commits` and `export_to_markdown` never drop one of its
elements. -/
theorem collected_commits_complete_fields :
    ∀ (l : List RawEntry) (repo : String),
      (∀ c ∈ collectCommits l,
          c.sha.isSome = true ∧ c.message.isSome = true
          ∧ c.author.isSome = true ∧ c.date.isSome = true
          ∧ ∀ s, c.sha = some s → s.length ≤ 7)
      ∧ ((collectCommits l).filterMap CommitDict.message).length =
          (collectCommits l).length
      ∧ ((collectCommits l).filterMap (commitLine repo)).length =
          (collectCommits l).length := by
  intro l repo
  have hmem : ∀ c ∈ collectCommits l, ∃ s msg name date,
      c = ⟨some (pySlice s 7), some msg, some name, some date⟩ := by
    intro c hc
    rw [collectCommits_eq_filterMap] at hc
    obtain ⟨e, _, he⟩ := List.mem_filterMap.mp hc
    exact extractFields_shape e c he
  refine ⟨?_, ?_, ?_⟩
  · intro c hc
    obtain ⟨s, msg, name, date, rfl⟩ := hmem c hc
    refine ⟨rfl, rfl, rfl, rfl, ?_⟩
    intro s2 hs2
    injection hs2 with h2
    subst h2
    exact pySlice_length_le s 7
  · refine length_filterMap_of_isSome _ _ ?_
    intro c hc
    obtain ⟨s, msg, name, date, rfl⟩ := hmem c hc
    rfl
  · refine length_filterMap_of_isSome _ _ ?_
    intro c hc
    obtain ⟨s, msg, name, date, rfl⟩ := hmem c hc
    rfl

/-- Closed instance of the C10 theorem: the dictionary collected from a
complete entry has its `sha` key present. -/
theorem collected_commits_complete_fields_witness :
    (({ sha := some (pySlice "abcdefgh" 7), message := some "m",
        author := some "n", date := some "d" } : CommitDict).sha).isSome =
      true :=
  ((collected_commits_complete_fields
      [⟨some "abcdefgh", some ⟨some "m", some ⟨some "n", some "d"⟩⟩⟩] "r").1
    ⟨some (pySlice "abcdefgh" 7), some "m", some "n", some "d"⟩
    (List.mem_cons_self _ _)).1

end DevOpsBuild
